import Mathlib

/-!
Verification of the lisk-sdk consensus and token core against its design
specification.  The TypeScript source is embedded shallowly: stores become
association lists, bigint arithmetic becomes Int, fallible calls become
Except, and the block processor becomes an explicit state-transition
function parameterised over the behaviour of the registered block
processor (forkStatus, validate, verify, apply, undo).
-/

/-! ### Keyed store primitives

The module state interface exposes getWithSchema and setWithSchema over a
keyed store.  We embed a sub-store as an association list; storeSet
overwrites the binding of an existing key in place and appends a fresh
key at the end. -/

namespace Store

variable {K V : Type} [DecidableEq K]

def storeGet : List (K × V) → K → Option V
  | [], _ => none
  | (k0, v0) :: rest, k => if k0 = k then some v0 else storeGet rest k

def storeSet : List (K × V) → K → V → List (K × V)
  | [], k, v => [(k, v)]
  | (k0, v0) :: rest, k, v =>
    if k0 = k then (k, v) :: rest else (k0, v0) :: storeSet rest k v

/-- Sum of a weight function over all entries of a store. -/
def sumBy (f : K → V → Int) : List (K × V) → Int
  | [] => 0
  | (k, v) :: rest => f k v + sumBy f rest

theorem storeGet_storeSet_self (l : List (K × V)) (k : K) (v : V) :
    storeGet (storeSet l k v) k = some v := by
  induction l with
  | nil => simp [storeSet, storeGet]
  | cons hd tl ih =>
    obtain ⟨k0, v0⟩ := hd
    by_cases h : k0 = k
    · simp [storeSet, storeGet, h]
    · simp [storeSet, storeGet, h, ih]

theorem storeGet_storeSet_ne (l : List (K × V)) (k k2 : K) (v : V) (hne : k ≠ k2) :
    storeGet (storeSet l k v) k2 = storeGet l k2 := by
  induction l with
  | nil => simp [storeSet, storeGet, hne]
  | cons hd tl ih =>
    obtain ⟨k0, v0⟩ := hd
    by_cases h : k0 = k
    · subst h
      simp [storeSet, storeGet, hne]
    · simp [storeSet, storeGet, h, ih]

theorem sumBy_storeSet_found (f : K → V → Int) (l : List (K × V)) (k : K) (v w : V)
    (hget : storeGet l k = some w) :
    sumBy f (storeSet l k v) = sumBy f l + f k v - f k w := by
  induction l with
  | nil => simp [storeGet] at hget
  | cons hd tl ih =>
    obtain ⟨k0, v0⟩ := hd
    by_cases h : k0 = k
    · subst h
      simp [storeGet] at hget
      subst hget
      simp [storeSet, sumBy]
      ring
    · simp [storeGet, h] at hget
      simp [storeSet, sumBy, h, ih hget]
      ring

theorem sumBy_storeSet_new (f : K → V → Int) (l : List (K × V)) (k : K) (v : V)
    (hget : storeGet l k = none) :
    sumBy f (storeSet l k v) = sumBy f l + f k v := by
  induction l with
  | nil => simp [storeSet, sumBy]
  | cons hd tl ih =>
    obtain ⟨k0, v0⟩ := hd
    by_cases h : k0 = k
    · simp [storeGet, h] at hget
    · simp [storeGet, h] at hget
      simp [storeSet, sumBy, h, ih hget]
      ring

/-- Any key-predicate that holds somewhere in the store keeps holding after
a storeSet, because storeSet never removes a key. -/
theorem any_key_storeSet (P : K → Bool) (l : List (K × V)) (k : K) (v : V)
    (h : l.any (fun e => P e.1) = true) :
    (storeSet l k v).any (fun e => P e.1) = true := by
  induction l with
  | nil => simp [List.any] at h
  | cons hd tl ih =>
    obtain ⟨k0, v0⟩ := hd
    rw [List.any_cons] at h
    rcases Bool.or_eq_true_iff.mp h with h0 | h0
    · by_cases hk : k0 = k
      · subst hk
        rw [storeSet, if_pos rfl, List.any_cons]
        exact Bool.or_eq_true_iff.mpr (Or.inl h0)
      · rw [storeSet, if_neg hk, List.any_cons]
        exact Bool.or_eq_true_iff.mpr (Or.inl h0)
    · by_cases hk : k0 = k
      · subst hk
        rw [storeSet, if_pos rfl, List.any_cons]
        exact Bool.or_eq_true_iff.mpr (Or.inr h0)
      · rw [storeSet, if_neg hk, List.any_cons]
        exact Bool.or_eq_true_iff.mpr (Or.inr (ih h0))

theorem any_key_storeSet_key (P : K → Bool) (l : List (K × V)) (k : K) (v : V)
    (h : P k = true) :
    (storeSet l k v).any (fun e => P e.1) = true := by
  induction l with
  | nil => simp [storeSet, List.any, h]
  | cons hd tl ih =>
    obtain ⟨k0, v0⟩ := hd
    by_cases hk : k0 = k
    · rw [storeSet, if_pos hk, List.any_cons]
      exact Bool.or_eq_true_iff.mpr (Or.inl h)
    · rw [storeSet, if_neg hk, List.any_cons]
      exact Bool.or_eq_true_iff.mpr (Or.inr ih)

end Store

/-! ### Token module

Shallow embedding of TokenAPI from
src/framework/src/modules/token/api.ts (given as types.ts part 2):
transfer, mint and burn over the user, supply and escrow sub-stores.
Addresses and buffers become Nat identifiers, bigint becomes Int. -/

namespace Token

open Store

abbrev Addr := Nat
abbrev ChainID := Nat
abbrev LocalID := Nat

/-- The chain id alias under which native tokens are stored canonically. -/
def CHAIN_ID_ALIAS_NATIVE : ChainID := 0

def MAX_UINT64 : Int := 2 ^ 64 - 1

structure TokenID where
  chainID : ChainID
  localID : LocalID
deriving DecidableEq, Repr

structure LockedBalance where
  moduleID : Nat
  amount : Int
deriving DecidableEq, Repr

structure UserStoreData where
  availableBalance : Int
  lockedBalances : List LockedBalance
deriving DecidableEq, Repr

structure SupplyStoreData where
  totalSupply : Int
deriving DecidableEq, Repr

structure EscrowStoreData where
  amount : Int
deriving DecidableEq, Repr

/-- Token module state: the user, supply and escrow sub-stores, plus the
configured min balances and the own chain id obtained through the
interoperability API. -/
structure TokenState where
  ownChainID : ChainID
  minBalances : List (TokenID × Int)
  userStore : List ((Addr × TokenID) × UserStoreData)
  supplyStore : List (LocalID × SupplyStoreData)
  escrowStore : List ((ChainID × LocalID) × EscrowStoreData)
deriving DecidableEq, Repr

/-- getCanonicalTokenID: native-alias ids are already canonical, ids naming
the own chain are rewritten to the native alias, foreign ids stay. -/
def getCanonicalTokenID (st : TokenState) (tokenID : TokenID) : TokenID :=
  if tokenID.chainID = CHAIN_ID_ALIAS_NATIVE then tokenID
  else if tokenID.chainID = st.ownChainID then ⟨CHAIN_ID_ALIAS_NATIVE, tokenID.localID⟩
  else tokenID

/-- The private accountExist helper iterates the user store over the whole
token id range of one address: the account exists when the address holds
any token entry at all. -/
def accountExist (userStore : List ((Addr × TokenID) × UserStoreData)) (address : Addr) : Bool :=
  userStore.any (fun e => e.1.1 = address)

def getMinBalance (st : TokenState) (tokenID : TokenID) : Option Int :=
  storeGet st.minBalances tokenID

/-- getAvailableBalance returns the stored available balance and 0 when the
user store has no entry (NotFoundError is caught). -/
def getAvailableBalance (st : TokenState) (address : Addr) (tokenID : TokenID) : Int :=
  match storeGet st.userStore (address, getCanonicalTokenID st tokenID) with
  | some user => user.availableBalance
  | none => 0

/-- TokenAPI.transfer: debit the sender, then, when the recipient address has
no account yet, deduct the min balance from the received amount and burn it
from the total supply when the token is native, then credit the recipient. -/
def transfer (st : TokenState) (senderAddress recipientAddress : Addr)
    (tokenID : TokenID) (amount : Int) : Except String TokenState :=
  let canonicalTokenID := getCanonicalTokenID st tokenID
  match storeGet st.userStore (senderAddress, canonicalTokenID) with
  | none => .error "NotFoundError"
  | some sender =>
    if sender.availableBalance < amount then
      .error "Sender balance is not sufficient"
    else
      let st1 := { st with
        userStore := storeSet st.userStore (senderAddress, canonicalTokenID)
          { sender with availableBalance := sender.availableBalance - amount } }
      let recipientExist := accountExist st1.userStore recipientAddress
      let receivedAmount := amount
      let afterMin : Except String (TokenState × Int) :=
        if recipientExist then .ok (st1, receivedAmount)
        else
          match getMinBalance st canonicalTokenID with
          | none => .error "Address cannot be initialized because min balance is not set"
          | some minBalance =>
            if minBalance > receivedAmount then
              .error "Amount does not satisfy min balance requirement"
            else
              let receivedAmount := receivedAmount - minBalance
              if canonicalTokenID.chainID = CHAIN_ID_ALIAS_NATIVE then
                match storeGet st1.supplyStore canonicalTokenID.localID with
                | none => .error "NotFoundError"
                | some supply =>
                  .ok ({ st1 with
                    supplyStore := storeSet st1.supplyStore canonicalTokenID.localID
                      { totalSupply := supply.totalSupply - minBalance } }, receivedAmount)
              else .ok (st1, receivedAmount)
      match afterMin with
      | .error e => .error e
      | .ok (st2, receivedAmount) =>
        match storeGet st2.userStore (recipientAddress, canonicalTokenID) with
        | some recipient =>
          .ok { st2 with
            userStore := storeSet st2.userStore (recipientAddress, canonicalTokenID)
              { recipient with availableBalance := recipient.availableBalance + receivedAmount } }
        | none =>
          .ok { st2 with
            userStore := storeSet st2.userStore (recipientAddress, canonicalTokenID)
              { availableBalance := 0 + receivedAmount, lockedBalances := [] } }

/-- TokenAPI.mint: only native tokens with an initialized supply can be
minted; a fresh recipient account pays the min balance out of the minted
amount, and the total supply grows by the received amount. -/
def mint (st : TokenState) (address : Addr) (tokenID : TokenID)
    (amount : Int) : Except String TokenState :=
  let canonicalTokenID := getCanonicalTokenID st tokenID
  if canonicalTokenID.chainID ≠ CHAIN_ID_ALIAS_NATIVE then
    .error "Only native token can be minted."
  else if amount < 0 then
    .error "Amount must be a positive integer to mint."
  else
    match storeGet st.supplyStore canonicalTokenID.localID with
    | none => .error "LocalID is not initialized to mint."
    | some supply =>
      if supply.totalSupply > MAX_UINT64 - amount then
        .error "Supply cannot exceed MAX_UINT64"
      else
        let recipientExist := accountExist st.userStore address
        let afterMin : Except String Int :=
          if recipientExist then .ok amount
          else
            match getMinBalance st canonicalTokenID with
            | none => .error "Address cannot be initialized because min balance is not set"
            | some minBalance =>
              if minBalance > amount then
                .error "Amount does not satisfy min balance requirement"
              else .ok (amount - minBalance)
        match afterMin with
        | .error e => .error e
        | .ok receivedAmount =>
          match storeGet st.userStore (address, canonicalTokenID) with
          | some recipient =>
            .ok { st with
              userStore := storeSet st.userStore (address, canonicalTokenID)
                { recipient with
                  availableBalance := recipient.availableBalance + receivedAmount }
              supplyStore := storeSet st.supplyStore canonicalTokenID.localID
                { totalSupply := supply.totalSupply + receivedAmount } }
          | none =>
            .ok { st with
              userStore := storeSet st.userStore (address, canonicalTokenID)
                { availableBalance := 0 + receivedAmount, lockedBalances := [] }
              supplyStore := storeSet st.supplyStore canonicalTokenID.localID
                { totalSupply := supply.totalSupply + receivedAmount } }

/-- TokenAPI.burn: only native tokens can be burnt; the sender is debited
and the total supply shrinks by the burnt amount. -/
def burn (st : TokenState) (address : Addr) (tokenID : TokenID)
    (amount : Int) : Except String TokenState :=
  let canonicalTokenID := getCanonicalTokenID st tokenID
  if canonicalTokenID.chainID ≠ CHAIN_ID_ALIAS_NATIVE then
    .error "Only native token can be burnt."
  else if amount < 0 then
    .error "Amount must be a positive integer to burn."
  else
    match storeGet st.userStore (address, canonicalTokenID) with
    | none => .error "NotFoundError"
    | some sender =>
      if sender.availableBalance < amount then
        .error "Sender balance is not sufficient"
      else
        let st1 := { st with
          userStore := storeSet st.userStore (address, canonicalTokenID)
            { sender with availableBalance := sender.availableBalance - amount } }
        match storeGet st1.supplyStore canonicalTokenID.localID with
        | none => .error "NotFoundError"
        | some supply =>
          .ok { st1 with
            supplyStore := storeSet st1.supplyStore canonicalTokenID.localID
              { totalSupply := supply.totalSupply - amount } }

/-- Sum of locked amounts of one user entry. -/
def lockedSum (lbs : List LockedBalance) : Int :=
  (lbs.map (fun lb => lb.amount)).sum

/-- Weight of one user-store entry towards the balance total of a token. -/
def userContribution (tokenID : TokenID) (k : Addr × TokenID) (u : UserStoreData) : Int :=
  if k.2 = tokenID then u.availableBalance + lockedSum u.lockedBalances else 0

/-- Sum of all user balances (available plus locked) held for a token. -/
def userTotal (st : TokenState) (tokenID : TokenID) : Int :=
  sumBy (userContribution tokenID) st.userStore

/-- Sum of all escrow balances held for a token (escrow entries are keyed
by an escrow chain id and the local id of the token). -/
def escrowTotal (st : TokenState) (tokenID : TokenID) : Int :=
  sumBy (fun k v => if k.2 = tokenID.localID then v.amount else 0) st.escrowStore

/-- The conserved quantity of the spec invariant: all user balances plus
all escrow balances for one token. -/
def totalHeld (st : TokenState) (tokenID : TokenID) : Int :=
  userTotal st tokenID + escrowTotal st tokenID

def totalSupplyOf (st : TokenState) (localID : LocalID) : Int :=
  match storeGet st.supplyStore localID with
  | some s => s.totalSupply
  | none => 0

end Token

/-! ### Block processor

Shallow embedding of Processor.process, processValidated, deleteBlock and
processGenesis from src/unnamed/part_000 style file part_005.  The
registered block processor (forkStatus, validate, verify, apply, undo) and
the chain module save and remove effects are abstracted into an
environment of possibly failing behaviours; channel publications are
collected as an event list; the chain is a list of blocks whose head is
the tip. -/

namespace Processor

structure Block where
  id : Nat
  height : Nat
  generatorPublicKey : Nat
  previousBlockID : Nat
deriving DecidableEq, Repr

/-- ForkStatus enumeration of the lisk-bft package, as numeric codes. -/
abbrev ForkStatus := Nat

def IDENTICAL_BLOCK : ForkStatus := 1
def VALID_BLOCK : ForkStatus := 2
def DOUBLE_FORGING : ForkStatus := 3
def TIE_BREAK : ForkStatus := 4
def DIFFERENT_CHAIN : ForkStatus := 5
def DISCARD : ForkStatus := 6

/-- The list of known fork statuses checked by process. -/
def forkStatusList : List ForkStatus :=
  [IDENTICAL_BLOCK, VALID_BLOCK, DOUBLE_FORGING, TIE_BREAK, DIFFERENT_CHAIN, DISCARD]

/-- One-way notifications published on the channel by the processor. -/
inductive ChannelEvent where
  | chainFork (blockId : Nat)
  | chainSync (blockId : Nat)
  | blockBroadcast (blockId : Nat)
deriving DecidableEq, Repr

/-- Behaviour of the registered block processor and the chain module for the
block versions in play: fork classification and the possibly failing
validate, verify, apply-and-save and undo-and-remove steps. -/
structure ProcessorEnv where
  forkStatus : Block → Block → ForkStatus
  validate : Block → Block → Except String Unit
  verify : Block → Block → Except String Unit
  apply : Block → Block → Except String Unit
  undo : Block → Except String Unit

/-- Chain state: blocks with the tip at the head. -/
structure ChainState where
  blocks : List Block
deriving DecidableEq, Repr

/-- Result of one top-level processor operation: the new chain state, the
events published on the channel in order, and the outcome. -/
structure ProcOutcome where
  state : ChainState
  events : List ChannelEvent
  result : Except String Unit
deriving Repr

/-- processValidated: run the block processor verify, publish the broadcast
notification unless skipped, run apply, and save the block as the new tip;
any failure leaves the chain untouched. -/
def processValidated (env : ProcessorEnv) (st : ChainState) (block lastBlock : Block)
    (skipBroadcast : Bool) : ChainState × List ChannelEvent × Except String Unit :=
  match env.verify block lastBlock with
  | .error e => (st, [], .error e)
  | .ok _ =>
    let evs := if skipBroadcast then [] else [ChannelEvent.blockBroadcast block.id]
    match env.apply block lastBlock with
    | .error e => (st, evs, .error e)
    | .ok _ => (⟨block :: st.blocks⟩, evs, .ok ())

/-- Processor.process: classify the fork status of the candidate against the
tip and dispatch exactly as the source does. -/
def process (env : ProcessorEnv) (st : ChainState) (block : Block) : ProcOutcome :=
  match st.blocks with
  | [] => ⟨st, [], .error "no last block"⟩
  | lastBlock :: rest =>
    let fs := env.forkStatus block lastBlock
    if fs ∉ forkStatusList then
      ⟨st, [], .error "Unknown fork status"⟩
    else if fs = DISCARD then
      ⟨st, [ChannelEvent.chainFork block.id], .ok ()⟩
    else if fs = IDENTICAL_BLOCK then
      ⟨st, [], .ok ()⟩
    else if fs = DOUBLE_FORGING then
      ⟨st, [ChannelEvent.chainFork block.id], .ok ()⟩
    else if fs = DIFFERENT_CHAIN then
      ⟨st, [ChannelEvent.chainSync block.id, ChannelEvent.chainFork block.id], .ok ()⟩
    else if fs = TIE_BREAK then
      let evs0 := [ChannelEvent.chainFork block.id]
      match env.validate block lastBlock with
      | .error e => ⟨st, evs0, .error e⟩
      | .ok _ =>
        match env.undo lastBlock with
        | .error e => ⟨st, evs0, .error e⟩
        | .ok _ =>
          match rest with
          | [] => ⟨⟨rest⟩, evs0, .error "no last block"⟩
          | newLastBlock :: _ =>
            let r1 := processValidated env ⟨rest⟩ block newLastBlock false
            match r1.2.2 with
            | .ok _ => ⟨r1.1, evs0 ++ r1.2.1, .ok ()⟩
            | .error _ =>
              let r2 := processValidated env ⟨rest⟩ lastBlock newLastBlock true
              ⟨r2.1, evs0 ++ r1.2.1 ++ r2.2.1, r2.2.2⟩
    else
      match env.validate block lastBlock with
      | .error e => ⟨st, [], .error e⟩
      | .ok _ =>
        let r := processValidated env st block lastBlock false
        ⟨r.1, r.2.1, r.2.2⟩

/-- Outcome flags of processGenesis: whether applyGenesis ran and whether
the chain module save ran. -/
structure GenesisOutcome where
  ranApplyGenesis : Bool
  saved : Bool
deriving DecidableEq, Repr

/-- Processor.processGenesis: throw when a state-only reapplication is
requested without a persisted genesis block; return without applying when
the block is persisted and no state-only reapplication is requested;
otherwise apply the genesis payload and save. -/
def processGenesis (isPersisted saveOnlyState : Bool) : Except String GenesisOutcome :=
  if saveOnlyState && !isPersisted then
    .error "Genesis block is not persisted but skipping to save"
  else if isPersisted && !saveOnlyState then
    .ok ⟨false, false⟩
  else
    .ok ⟨true, true⟩

end Processor

/-! ### Interoperability engine

Shallow embedding of SidechainCCSidechainTerminatedCommand.execute
(src/unnamed part_006) and of the liveness termination command whose
tests live under
src/framework/test/unit/modules/interoperability/mainchain/commands.
The internal methods createTerminatedStateAccount and
terminateChainInternal, and the terminated-state store lookup, are not
under src, so they are modelled from the spec. -/

namespace Interop

open Store

abbrev ChainID := Nat

def MAINCHAIN_ID : ChainID := 1

inductive ChainStatus where
  | registered
  | active
  | terminated
deriving DecidableEq, Repr

structure LastCertificate where
  height : Nat
  stateRoot : Nat
  timestamp : Nat
  validatorsHash : Nat
deriving DecidableEq, Repr

structure ChainAccount where
  name : Nat
  lastCertificate : LastCertificate
  status : ChainStatus
deriving DecidableEq, Repr

structure TerminatedStateAccount where
  stateRoot : Nat
deriving DecidableEq, Repr

/-- Interoperability state: the terminated-state sub-store, the chain
account sub-store and the set of open channels. -/
structure InteropState where
  terminatedState : List (ChainID × TerminatedStateAccount)
  chainAccounts : List (ChainID × ChainAccount)
  channels : List ChainID
deriving DecidableEq, Repr

/-- Params of a sidechain-terminated CCM. -/
structure SidechainTerminatedParams where
  chainID : ChainID
  stateRoot : Nat
deriving DecidableEq, Repr

/-- Cross-chain message envelope, with the params already decoded. -/
structure CCM where
  nonce : Nat
  sendingChainID : ChainID
  receivingChainID : ChainID
  fee : Int
  status : Nat
  params : SidechainTerminatedParams
deriving DecidableEq, Repr

/-- Modelled from the spec: createTerminatedStateAccount records the final
state root of a severed chain in the terminated-state sub-store. -/
def createTerminatedStateAccount (st : InteropState) (chainID : ChainID)
    (stateRoot : Nat) : InteropState :=
  { st with terminatedState := storeSet st.terminatedState chainID ⟨stateRoot⟩ }

/-- Modelled from the spec: terminateChainInternal marks the chain account
of the given chain TERMINATED and severs its channel; it does not touch the
terminated-state sub-store of any other chain. -/
def terminateChainInternal (st : InteropState) (chainID : ChainID) : InteropState :=
  let accounts :=
    match storeGet st.chainAccounts chainID with
    | some account =>
      storeSet st.chainAccounts chainID { account with status := ChainStatus.terminated }
    | none => st.chainAccounts
  { st with
    chainAccounts := accounts
    channels := st.channels.filter (fun c => c ≠ chainID) }

/-- SidechainCCSidechainTerminatedCommand.execute: a sidechain-terminated
CCM from the mainchain creates a terminated-state account for the target
chain unless one exists; from any other sender, the sending chain itself
is terminated internally.  The terminated-state lookup follows the keyed
store contract of the spec, returning the value or NotFound. -/
def sidechainTerminatedExecute (st : InteropState) (ccm : Option CCM) :
    Except String InteropState :=
  match ccm with
  | none => .error "CCM to execute sidechain terminated cross chain command is missing."
  | some ccm =>
    if ccm.sendingChainID = MAINCHAIN_ID then
      match storeGet st.terminatedState ccm.params.chainID with
      | some _ => .ok st
      | none =>
        .ok (createTerminatedStateAccount st ccm.params.chainID ccm.params.stateRoot)
    else
      .ok (terminateChainInternal st ccm.sendingChainID)

/-- Modelled from the spec: a chain is live while its last certificate is
not older than the liveness threshold. -/
def isLive (lastCertTimestamp threshold now : Nat) : Bool :=
  now ≤ lastCertTimestamp + threshold

/-- Modelled from the spec: TerminateSidechainForLivenessCommand.verify
rejects a missing chain account, an already terminated chain, and a chain
that is still live, and returns OK otherwise. -/
def livenessVerify (st : InteropState) (chainID : ChainID) (threshold now : Nat) :
    Except String Unit :=
  match storeGet st.chainAccounts chainID with
  | none => .error "Chain account does not exist"
  | some account =>
    if account.status = ChainStatus.terminated then
      .error "Sidechain is already terminated"
    else if isLive account.lastCertificate.timestamp threshold now then
      .error "Sidechain did not violate the liveness condition"
    else
      .ok ()

/-- Modelled from the spec: TerminateSidechainForLivenessCommand.execute
invokes the internal terminate-chain routine unconditionally. -/
def livenessExecute (st : InteropState) (chainID : ChainID) : InteropState :=
  terminateChainInternal st chainID

end Interop

/-! ### Certificate verification boundary

Shallow embedding of
src/framework/src/node/consensus/certificate_generation/utils.ts. -/

namespace Certificate

structure Cert where
  blockID : Nat
  height : Nat
  stateRoot : Nat
  timestamp : Nat
  validatorsHash : Nat
deriving DecidableEq, Repr

/-- verifySingleCertificateSignature as written in the source: every
argument is ignored and the result is the constant true. -/
def verifySingleCertificateSignature (_pk _signature _networkIdentifier : Nat)
    (_certificate : Cert) : Bool :=
  true

end Certificate

/-! ### Claim theorems -/

/-- C10: verifySingleCertificateSignature returns true for every input; the
public key, signature, network identifier and certificate arguments are all
ignored, so single-signature certificate verification accepts any
signature whatsoever. -/
theorem c10_verify_single_certificate_signature_always_true
    (pk signature networkIdentifier : Nat) (certificate : Certificate.Cert) :
    Certificate.verifySingleCertificateSignature pk signature networkIdentifier certificate
      = true :=
  rfl

/-- C8: genesis application returns the block without running applyGenesis
or saving when the genesis block is persisted and no state-only
reapplication is requested; it throws when a state-only reapplication is
requested but the block is not persisted; in the remaining cases it runs
applyGenesis and saves. -/
theorem c8_process_genesis_idempotent :
    Processor.processGenesis true false = .ok ⟨false, false⟩ ∧
    Processor.processGenesis false true =
      .error "Genesis block is not persisted but skipping to save" ∧
    Processor.processGenesis false false = .ok ⟨true, true⟩ ∧
    Processor.processGenesis true true = .ok ⟨true, true⟩ :=
  ⟨rfl, rfl, rfl, rfl⟩

/-- C9: when the computed fork status is outside the six known statuses,
process throws Unknown fork status without applying the block, without
changing the tip and without publishing any notification. -/
theorem c9_unknown_fork_status (env : Processor.ProcessorEnv) (st : Processor.ChainState)
    (b lastB : Processor.Block) (rest : List Processor.Block)
    (hchain : st.blocks = lastB :: rest)
    (hfs : env.forkStatus b lastB ∉ Processor.forkStatusList) :
    Processor.process env st b = ⟨st, [], .error "Unknown fork status"⟩ := by
  unfold Processor.process
  rw [hchain]
  simp only [hfs, not_false_eq_true, if_pos]

/-- C1: for DISCARD, IDENTICAL_BLOCK, DOUBLE_FORGING and DIFFERENT_CHAIN
the process operation returns successfully without applying the block and
without changing the chain tip, publishing a fork notification for
DOUBLE_FORGING, DIFFERENT_CHAIN and (for observability) DISCARD and
nothing for IDENTICAL_BLOCK; for VALID_BLOCK it validates and then applies
the block as the new tip. -/
theorem c1_process_fork_status_dispatch (env : Processor.ProcessorEnv)
    (st : Processor.ChainState) (b lastB : Processor.Block) (rest : List Processor.Block)
    (hchain : st.blocks = lastB :: rest) :
    (env.forkStatus b lastB = Processor.DISCARD →
      Processor.process env st b =
        ⟨st, [Processor.ChannelEvent.chainFork b.id], .ok ()⟩) ∧
    (env.forkStatus b lastB = Processor.IDENTICAL_BLOCK →
      Processor.process env st b = ⟨st, [], .ok ()⟩) ∧
    (env.forkStatus b lastB = Processor.DOUBLE_FORGING →
      Processor.process env st b =
        ⟨st, [Processor.ChannelEvent.chainFork b.id], .ok ()⟩) ∧
    (env.forkStatus b lastB = Processor.DIFFERENT_CHAIN →
      Processor.process env st b =
        ⟨st, [Processor.ChannelEvent.chainSync b.id,
              Processor.ChannelEvent.chainFork b.id], .ok ()⟩) ∧
    (env.forkStatus b lastB = Processor.VALID_BLOCK →
      env.validate b lastB = .ok () →
      env.verify b lastB = .ok () →
      env.apply b lastB = .ok () →
      Processor.process env st b =
        ⟨⟨b :: st.blocks⟩, [Processor.ChannelEvent.blockBroadcast b.id], .ok ()⟩) := by
  refine ⟨?_, ?_, ?_, ?_, ?_⟩
  · intro h
    unfold Processor.process
    rw [hchain]
    simp [h, Processor.forkStatusList, Processor.DISCARD, Processor.IDENTICAL_BLOCK,
      Processor.VALID_BLOCK, Processor.DOUBLE_FORGING, Processor.TIE_BREAK,
      Processor.DIFFERENT_CHAIN]
  · intro h
    unfold Processor.process
    rw [hchain]
    simp [h, Processor.forkStatusList, Processor.DISCARD, Processor.IDENTICAL_BLOCK,
      Processor.VALID_BLOCK, Processor.DOUBLE_FORGING, Processor.TIE_BREAK,
      Processor.DIFFERENT_CHAIN]
  · intro h
    unfold Processor.process
    rw [hchain]
    simp [h, Processor.forkStatusList, Processor.DISCARD, Processor.IDENTICAL_BLOCK,
      Processor.VALID_BLOCK, Processor.DOUBLE_FORGING, Processor.TIE_BREAK,
      Processor.DIFFERENT_CHAIN]
  · intro h
    unfold Processor.process
    rw [hchain]
    simp [h, Processor.forkStatusList, Processor.DISCARD, Processor.IDENTICAL_BLOCK,
      Processor.VALID_BLOCK, Processor.DOUBLE_FORGING, Processor.TIE_BREAK,
      Processor.DIFFERENT_CHAIN]
  · intro h hvalidate hverify happly
    unfold Processor.process
    rw [hchain]
    simp [h, hvalidate, hverify, happly, Processor.processValidated,
      Processor.forkStatusList, Processor.DISCARD, Processor.IDENTICAL_BLOCK,
      Processor.VALID_BLOCK, Processor.DOUBLE_FORGING, Processor.TIE_BREAK,
      Processor.DIFFERENT_CHAIN, hchain]

/-- C2: for a TIE_BREAK candidate, process reverts the tip and applies the
candidate; when applying the candidate fails, the previously deleted tip
is re-applied so the chain is restored, and process returns successfully
instead of propagating the application error. -/
theorem c2_tie_break_revert_and_restore (env : Processor.ProcessorEnv)
    (st : Processor.ChainState) (b t u : Processor.Block) (rest : List Processor.Block)
    (hchain : st.blocks = t :: u :: rest)
    (hfs : env.forkStatus b t = Processor.TIE_BREAK)
    (hvalidate : env.validate b t = .ok ())
    (hundo : env.undo t = .ok ()) :
    (env.verify b u = .ok () → env.apply b u = .ok () →
      Processor.process env st b =
        ⟨⟨b :: u :: rest⟩,
         [Processor.ChannelEvent.chainFork b.id,
          Processor.ChannelEvent.blockBroadcast b.id], .ok ()⟩) ∧
    (∀ e, env.verify b u = .ok () → env.apply b u = .error e →
      env.verify t u = .ok () → env.apply t u = .ok () →
      Processor.process env st b =
        ⟨⟨t :: u :: rest⟩,
         [Processor.ChannelEvent.chainFork b.id,
          Processor.ChannelEvent.blockBroadcast b.id], .ok ()⟩) := by
  constructor
  · intro hverify happly
    unfold Processor.process
    rw [hchain]
    simp [hfs, hvalidate, hundo, hverify, happly, Processor.processValidated,
      Processor.forkStatusList, Processor.DISCARD, Processor.IDENTICAL_BLOCK,
      Processor.VALID_BLOCK, Processor.DOUBLE_FORGING, Processor.TIE_BREAK,
      Processor.DIFFERENT_CHAIN]
  · intro e hverify happly hverifyPrev happlyPrev
    unfold Processor.process
    rw [hchain]
    simp [hfs, hvalidate, hundo, hverify, happly, hverifyPrev, happlyPrev,
      Processor.processValidated, Processor.forkStatusList, Processor.DISCARD,
      Processor.IDENTICAL_BLOCK, Processor.VALID_BLOCK, Processor.DOUBLE_FORGING,
      Processor.TIE_BREAK, Processor.DIFFERENT_CHAIN]

/-- C6: a sidechain-terminated CCM from the mainchain is a no-op when the
target chain already has a terminated-state entry and otherwise creates a
TerminatedStateAccount recording the state root of the params for the
target chain; from a non-mainchain sender the sending chain is terminated
internally and no terminated-state account is created for the target. -/
theorem c6_sidechain_terminated_dispatch (st : Interop.InteropState) (ccm : Interop.CCM) :
    (ccm.sendingChainID = Interop.MAINCHAIN_ID →
      ∀ acct, Store.storeGet st.terminatedState ccm.params.chainID = some acct →
        Interop.sidechainTerminatedExecute st (some ccm) = .ok st) ∧
    (ccm.sendingChainID = Interop.MAINCHAIN_ID →
      Store.storeGet st.terminatedState ccm.params.chainID = none →
      Interop.sidechainTerminatedExecute st (some ccm) =
        .ok (Interop.createTerminatedStateAccount st ccm.params.chainID ccm.params.stateRoot) ∧
      Store.storeGet
        (Interop.createTerminatedStateAccount st ccm.params.chainID
          ccm.params.stateRoot).terminatedState ccm.params.chainID =
        some ⟨ccm.params.stateRoot⟩) ∧
    (ccm.sendingChainID ≠ Interop.MAINCHAIN_ID →
      Interop.sidechainTerminatedExecute st (some ccm) =
        .ok (Interop.terminateChainInternal st ccm.sendingChainID) ∧
      (Interop.terminateChainInternal st ccm.sendingChainID).terminatedState =
        st.terminatedState ∧
      (∀ a, Store.storeGet st.chainAccounts ccm.sendingChainID = some a →
        Store.storeGet (Interop.terminateChainInternal st ccm.sendingChainID).chainAccounts
            ccm.sendingChainID =
          some { a with status := Interop.ChainStatus.terminated })) := by
  refine ⟨?_, ?_, ?_⟩
  · intro hmain acct hget
    simp [Interop.sidechainTerminatedExecute, hmain, hget]
  · intro hmain hget
    constructor
    · simp [Interop.sidechainTerminatedExecute, hmain, hget]
    · simp [Interop.createTerminatedStateAccount, Store.storeGet_storeSet_self]
  · intro hne
    refine ⟨?_, ?_, ?_⟩
    · simp [Interop.sidechainTerminatedExecute, hne]
    · simp [Interop.terminateChainInternal]
    · intro a hget
      simp [Interop.terminateChainInternal, hget, Store.storeGet_storeSet_self]

/-- C7: the liveness-termination verify rejects a missing chain account, an
already terminated chain and a chain that is still live, and returns OK
otherwise; execute invokes the internal terminate-chain routine, leaving
the status of the target chain TERMINATED. -/
theorem c7_liveness_termination (st : Interop.InteropState) (chainID : Interop.ChainID)
    (threshold now : Nat) :
    (Store.storeGet st.chainAccounts chainID = none →
      Interop.livenessVerify st chainID threshold now =
        .error "Chain account does not exist") ∧
    (∀ a, Store.storeGet st.chainAccounts chainID = some a →
      a.status = Interop.ChainStatus.terminated →
      Interop.livenessVerify st chainID threshold now =
        .error "Sidechain is already terminated") ∧
    (∀ a, Store.storeGet st.chainAccounts chainID = some a →
      a.status ≠ Interop.ChainStatus.terminated →
      Interop.isLive a.lastCertificate.timestamp threshold now = true →
      Interop.livenessVerify st chainID threshold now =
        .error "Sidechain did not violate the liveness condition") ∧
    (∀ a, Store.storeGet st.chainAccounts chainID = some a →
      a.status ≠ Interop.ChainStatus.terminated →
      Interop.isLive a.lastCertificate.timestamp threshold now = false →
      Interop.livenessVerify st chainID threshold now = .ok ()) ∧
    (Interop.livenessExecute st chainID = Interop.terminateChainInternal st chainID ∧
      ∀ a, Store.storeGet st.chainAccounts chainID = some a →
        Store.storeGet (Interop.livenessExecute st chainID).chainAccounts chainID =
          some { a with status := Interop.ChainStatus.terminated }) := by
  refine ⟨?_, ?_, ?_, ?_, rfl, ?_⟩
  · intro hget
    simp [Interop.livenessVerify, hget]
  · intro a hget hstatus
    simp [Interop.livenessVerify, hget, hstatus]
  · intro a hget hstatus hlive
    simp [Interop.livenessVerify, hget, hstatus, hlive]
  · intro a hget hstatus hlive
    simp [Interop.livenessVerify, hget, hstatus, hlive]
  · intro a hget
    simp [Interop.livenessExecute, Interop.terminateChainInternal, hget,
      Store.storeGet_storeSet_self]

/-- Concrete token state for the min-balance scenario with a token native
to this chain: sender address 1 holds 100 of token (0,1), min balance 5,
total supply 1000, no recipient account, no escrow. -/
def exTokenStateNative : Token.TokenState :=
  { ownChainID := 7
    minBalances := [(⟨0, 1⟩, 5)]
    userStore := [((1, ⟨0, 1⟩), ⟨100, []⟩)]
    supplyStore := [(1, ⟨1000⟩)]
    escrowStore := [] }

/-- Concrete token state for the same scenario with a foreign token (9,1):
chain id 9 is neither the native alias nor the own chain 7. -/
def exTokenStateForeign : Token.TokenState :=
  { ownChainID := 7
    minBalances := [(⟨9, 1⟩, 5)]
    userStore := [((1, ⟨9, 1⟩), ⟨100, []⟩)]
    supplyStore := [(1, ⟨1000⟩)]
    escrowStore := [] }

/-- C4: transferring 30 from a sender holding 100 to a fresh recipient with
min balance 5 leaves the sender with 70, credits the recipient 25, and
decreases the total supply by exactly 5 when the token is native to this
chain while leaving it unchanged for a foreign token. -/
theorem c4_transfer_min_balance_scenario :
    (Token.transfer exTokenStateNative 1 2 ⟨0, 1⟩ 30).map
        (fun s => (Token.getAvailableBalance s 1 ⟨0, 1⟩,
                   Token.getAvailableBalance s 2 ⟨0, 1⟩,
                   Token.totalSupplyOf s 1)) = .ok (70, 25, 995) ∧
    Token.totalSupplyOf exTokenStateNative 1 = 1000 ∧
    (Token.transfer exTokenStateForeign 1 2 ⟨9, 1⟩ 30).map
        (fun s => (Token.getAvailableBalance s 1 ⟨9, 1⟩,
                   Token.getAvailableBalance s 2 ⟨9, 1⟩,
                   Token.totalSupplyOf s 1)) = .ok (70, 25, 1000) ∧
    Token.totalSupplyOf exTokenStateForeign 1 = 1000 :=
  ⟨rfl, rfl, rfl, rfl⟩

/-- C3 counterexample: the very transfer of the spec min-balance scenario
does not conserve the sum of user balances plus escrow balances; the total
held for the token drops from 100 to 95 because the min balance is burned
when the recipient account is initialized, so transfer is not
conservation-preserving and mint and burn are not the only total-changing
operations. -/
theorem c3_counterexample :
    (Token.transfer exTokenStateNative 1 2 ⟨0, 1⟩ 30).map
        (fun s => Token.totalHeld s ⟨0, 1⟩) = .ok 95 ∧
    Token.totalHeld exTokenStateNative ⟨0, 1⟩ = 100 ∧ (95 : Int) ≠ 100 :=
  ⟨rfl, rfl, by decide⟩

/-- Helper: reading the available balance when the user entry is known. -/
theorem getAvailableBalance_of_get (st : Token.TokenState) (addr : Token.Addr)
    (tid : Token.TokenID) (u : Token.UserStoreData)
    (h : Store.storeGet st.userStore (addr, Token.getCanonicalTokenID st tid) = some u) :
    Token.getAvailableBalance st addr tid = u.availableBalance := by
  unfold Token.getAvailableBalance
  rw [h]

/-- C5: transfer throws before debiting whenever the stored available
balance of the sender is below the requested amount, and a sender whose
stored available balance is non-negative can never be left with a
negative available balance by a successful transfer. -/
theorem c5_transfer_sender_balance_safe (st st' : Token.TokenState) (s r : Token.Addr)
    (tid : Token.TokenID) (amount : Int) :
    (Token.getAvailableBalance st s tid < amount →
      ∃ e, Token.transfer st s r tid amount = .error e) ∧
    (0 ≤ Token.getAvailableBalance st s tid →
      Token.transfer st s r tid amount = .ok st' →
      0 ≤ Token.getAvailableBalance st' s tid) := by
  constructor
  · intro hlt
    unfold Token.getAvailableBalance at hlt
    cases hget : Store.storeGet st.userStore (s, Token.getCanonicalTokenID st tid) with
    | none => exact ⟨"NotFoundError", by simp [Token.transfer, hget]⟩
    | some sender =>
      rw [hget] at hlt
      simp only at hlt
      exact ⟨"Sender balance is not sufficient", by simp [Token.transfer, hget, hlt]⟩
  · intro h0 htr
    unfold Token.getAvailableBalance at h0
    simp only [Token.transfer] at htr
    split at htr
    · exact absurd htr (by simp)
    · rename_i sender hget
      rw [hget] at h0
      simp only at h0
      split at htr
      · exact absurd htr (by simp)
      · rename_i hlt
        split at htr
        · exact absurd htr (by simp)
        · rename_i st2 received heq
          by_cases hrs : r = s
          · subst hrs
            split at heq
            · injection heq with h2
              injection h2 with ha hb
              subst ha
              subst hb
              split at htr
              · rename_i recipient cget
                rw [Store.storeGet_storeSet_self] at cget
                injection cget with hc
                subst hc
                injection htr with h
                subst h
                rw [getAvailableBalance_of_get _ _ _ _ (Store.storeGet_storeSet_self _ _ _)]
                show 0 ≤ sender.availableBalance - amount + amount
                omega
              · rename_i cget
                rw [Store.storeGet_storeSet_self] at cget
                exact absurd cget (by simp)
            · rename_i hcond
              exact absurd (Store.any_key_storeSet_key
                (fun k : Token.Addr × Token.TokenID => decide (k.1 = r)) _ _ _ (by simp)) hcond
          · have hne : ((r, Token.getCanonicalTokenID st tid) :
                Token.Addr × Token.TokenID) ≠ (s, Token.getCanonicalTokenID st tid) :=
              fun h => hrs (congrArg Prod.fst h)
            have hst2 : ∃ sup, st2 = Token.TokenState.mk st.ownChainID st.minBalances
                (Store.storeSet st.userStore (s, Token.getCanonicalTokenID st tid)
                  { availableBalance := sender.availableBalance - amount,
                    lockedBalances := sender.lockedBalances })
                sup st.escrowStore := by
              split at heq
              · injection heq with h2
                injection h2 with ha hb
                exact ⟨_, ha.symm⟩
              · split at heq
                · exact absurd heq (by simp)
                · split at heq
                  · exact absurd heq (by simp)
                  · split at heq
                    · split at heq
                      · exact absurd heq (by simp)
                      · injection heq with h2
                        injection h2 with ha hb
                        exact ⟨_, ha.symm⟩
                    · injection heq with h2
                      injection h2 with ha hb
                      exact ⟨_, ha.symm⟩
            obtain ⟨sup, hst2⟩ := hst2
            subst hst2
            split at htr
            · rename_i recipient cget
              injection htr with h
              subst h
              rw [getAvailableBalance_of_get _ _ _ _
                ((Store.storeGet_storeSet_ne _ _ _ _ hne).trans
                  (Store.storeGet_storeSet_self _ _ _))]
              show 0 ≤ sender.availableBalance - amount
              omega
            · rename_i cget
              injection htr with h
              subst h
              rw [getAvailableBalance_of_get _ _ _ _
                ((Store.storeGet_storeSet_ne _ _ _ _ hne).trans
                  (Store.storeGet_storeSet_self _ _ _))]
              show 0 ≤ sender.availableBalance - amount
              omega

/-- C3 amended: the sum of all user balances plus all escrow balances for a
token is conserved by transfer whenever the recipient address already has
an account; mint to an existing account increases the total by the minted
amount, and burn decreases it by the burnt amount (so a transfer that
initializes a fresh recipient account, which burns the min balance as the
C3 counterexample shows, is a further total-changing operation besides
mint and burn). -/
theorem c3_total_conservation_amended (st st' : Token.TokenState)
    (s r a : Token.Addr) (tid : Token.TokenID) (amount : Int) :
    (Token.accountExist st.userStore r = true →
      Token.transfer st s r tid amount = .ok st' →
      ∀ q, Token.totalHeld st' q = Token.totalHeld st q) ∧
    (Token.accountExist st.userStore a = true →
      Token.mint st a tid amount = .ok st' →
      ∀ q, Token.totalHeld st' q =
        Token.totalHeld st q +
          (if Token.getCanonicalTokenID st tid = q then amount else 0)) ∧
    (Token.burn st a tid amount = .ok st' →
      ∀ q, Token.totalHeld st' q =
        Token.totalHeld st q -
          (if Token.getCanonicalTokenID st tid = q then amount else 0)) := by
  refine ⟨?_, ?_, ?_⟩
  · intro hexistR htr q
    simp only [Token.transfer] at htr
    split at htr
    · exact absurd htr (by simp)
    · rename_i sender hget
      split at htr
      · exact absurd htr (by simp)
      · rename_i hlt
        split at htr
        · exact absurd htr (by simp)
        · rename_i st2 received heq
          split at heq
          · injection heq with h2
            injection h2 with ha hb
            subst ha
            subst hb
            split at htr
            · rename_i recipient cget
              injection htr with h
              subst h
              simp only [Token.totalHeld, Token.userTotal, Token.escrowTotal]
              rw [Store.sumBy_storeSet_found _ _ _ _ _ cget]
              rw [Store.sumBy_storeSet_found _ _ _ _ _ hget]
              simp only [Token.userContribution]
              split_ifs <;> ring
            · rename_i cget
              injection htr with h
              subst h
              simp only [Token.totalHeld, Token.userTotal, Token.escrowTotal]
              rw [Store.sumBy_storeSet_new _ _ _ _ cget]
              rw [Store.sumBy_storeSet_found _ _ _ _ _ hget]
              simp only [Token.userContribution, Token.lockedSum, List.map_nil, List.sum_nil]
              split_ifs <;> ring
          · rename_i hcond
            exact absurd (Store.any_key_storeSet
              (fun k : Token.Addr × Token.TokenID => decide (k.1 = r)) _ _ _ hexistR) hcond
  · intro hexistA hm q
    simp only [Token.mint] at hm
    rw [if_pos hexistA] at hm
    split at hm
    · exact absurd hm (by simp)
    · split at hm
      · exact absurd hm (by simp)
      · split at hm
        · exact absurd hm (by simp)
        · rename_i supply hsupply
          split at hm
          · exact absurd hm (by simp)
          · rename_i hmax
            split at hm
            · exact absurd hm (by simp)
            · rename_i received hrec
              injection hrec with h2
              subst h2
              split at hm
              · rename_i recipient cget
                injection hm with h
                subst h
                simp only [Token.totalHeld, Token.userTotal, Token.escrowTotal]
                rw [Store.sumBy_storeSet_found _ _ _ _ _ cget]
                simp only [Token.userContribution]
                split_ifs <;> ring
              · rename_i cget
                injection hm with h
                subst h
                simp only [Token.totalHeld, Token.userTotal, Token.escrowTotal]
                rw [Store.sumBy_storeSet_new _ _ _ _ cget]
                simp only [Token.userContribution, Token.lockedSum, List.map_nil,
                  List.sum_nil]
                split_ifs <;> ring
  · intro hb q
    simp only [Token.burn] at hb
    split at hb
    · exact absurd hb (by simp)
    · split at hb
      · exact absurd hb (by simp)
      · split at hb
        · exact absurd hb (by simp)
        · rename_i sender hget
          split at hb
          · exact absurd hb (by simp)
          · rename_i hlt
            split at hb
            · exact absurd hb (by simp)
            · rename_i supply hsupply
              injection hb with h
              subst h
              simp only [Token.totalHeld, Token.userTotal, Token.escrowTotal]
              rw [Store.sumBy_storeSet_found _ _ _ _ _ hget]
              simp only [Token.userContribution]
              split_ifs <;> ring

/-! ### Concrete witnesses -/

def exBlockT : Processor.Block := ⟨10, 5, 100, 9⟩

def exBlockU : Processor.Block := ⟨9, 4, 101, 8⟩

def exBlockC : Processor.Block := ⟨11, 5, 102, 9⟩

/-- Environment whose block processor classifies everything DISCARD. -/
def exEnvDiscard : Processor.ProcessorEnv :=
  { forkStatus := fun _ _ => Processor.DISCARD
    validate := fun _ _ => .ok ()
    verify := fun _ _ => .ok ()
    apply := fun _ _ => .ok ()
    undo := fun _ => .ok () }

/-- Environment returning the out-of-range fork status 0. -/
def exEnvUnknown : Processor.ProcessorEnv :=
  { exEnvDiscard with forkStatus := fun _ _ => 0 }

/-- Environment classifying TIE_BREAK where applying the candidate fails. -/
def exEnvTieBreakFail : Processor.ProcessorEnv :=
  { forkStatus := fun _ _ => Processor.TIE_BREAK
    validate := fun _ _ => .ok ()
    verify := fun _ _ => .ok ()
    apply := fun b _ => if b.id = exBlockC.id then .error "boom" else .ok ()
    undo := fun _ => .ok () }

/-- Witness for C1: a concrete DISCARD block leaves the chain untouched and
publishes one fork notification. -/
theorem c1_process_fork_status_dispatch_witness :
    Processor.process exEnvDiscard ⟨[exBlockT]⟩ exBlockC =
      ⟨⟨[exBlockT]⟩, [Processor.ChannelEvent.chainFork exBlockC.id], .ok ()⟩ :=
  (c1_process_fork_status_dispatch exEnvDiscard ⟨[exBlockT]⟩ exBlockC exBlockT [] rfl).1 rfl

/-- Witness for C2: a concrete TIE_BREAK candidate whose application fails
leaves the original chain restored with a successful outcome. -/
theorem c2_tie_break_revert_and_restore_witness :
    Processor.process exEnvTieBreakFail ⟨[exBlockT, exBlockU]⟩ exBlockC =
      ⟨⟨[exBlockT, exBlockU]⟩,
       [Processor.ChannelEvent.chainFork exBlockC.id,
        Processor.ChannelEvent.blockBroadcast exBlockC.id], .ok ()⟩ :=
  (c2_tie_break_revert_and_restore exEnvTieBreakFail ⟨[exBlockT, exBlockU]⟩ exBlockC
    exBlockT exBlockU [] rfl rfl rfl rfl).2 "boom" rfl rfl rfl rfl

/-- Witness for C9: a concrete fork status 0 makes process throw. -/
theorem c9_unknown_fork_status_witness :
    Processor.process exEnvUnknown ⟨[exBlockT]⟩ exBlockC =
      ⟨⟨[exBlockT]⟩, [], .error "Unknown fork status"⟩ :=
  c9_unknown_fork_status exEnvUnknown ⟨[exBlockT]⟩ exBlockC exBlockT [] rfl (by decide)

/-- Concrete interoperability state: chain 5 is active with an old
certificate, one open channel, no terminated-state entries. -/
def exInteropState : Interop.InteropState :=
  { terminatedState := []
    chainAccounts := [(5, ⟨0, ⟨12, 34, 56, 78⟩, Interop.ChainStatus.active⟩)]
    channels := [5] }

/-- A sidechain-terminated CCM arriving from the mainchain for chain 5. -/
def exCCMFromMain : Interop.CCM :=
  { nonce := 0
    sendingChainID := Interop.MAINCHAIN_ID
    receivingChainID := 2
    fee := 0
    status := 0
    params := ⟨5, 99⟩ }

/-- Witness for C6: the mainchain-sent CCM creates a terminated-state entry
recording state root 99 for chain 5. -/
theorem c6_sidechain_terminated_dispatch_witness :
    Interop.sidechainTerminatedExecute exInteropState (some exCCMFromMain) =
      .ok (Interop.createTerminatedStateAccount exInteropState 5 99) ∧
    Store.storeGet
      (Interop.createTerminatedStateAccount exInteropState 5 99).terminatedState 5 =
      some ⟨99⟩ :=
  (c6_sidechain_terminated_dispatch exInteropState exCCMFromMain).2.1 rfl rfl

/-- Witness for C7: a stale chain passes verify and execute terminates it. -/
theorem c7_liveness_termination_witness :
    Interop.livenessVerify exInteropState 5 100 1000 = .ok () ∧
    Store.storeGet (Interop.livenessExecute exInteropState 5).chainAccounts 5 =
      some ⟨0, ⟨12, 34, 56, 78⟩, Interop.ChainStatus.terminated⟩ :=
  ⟨(c7_liveness_termination exInteropState 5 100 1000).2.2.2.1
      ⟨0, ⟨12, 34, 56, 78⟩, Interop.ChainStatus.active⟩ rfl (by decide) (by decide),
   (c7_liveness_termination exInteropState 5 100 1000).2.2.2.2.2
      ⟨0, ⟨12, 34, 56, 78⟩, Interop.ChainStatus.active⟩ rfl⟩

/-- Token state after the C4 native transfer: sender 70, recipient 25,
supply 995. -/
def exStAfterNative : Token.TokenState :=
  { ownChainID := 7
    minBalances := [(⟨0, 1⟩, 5)]
    userStore := [((1, ⟨0, 1⟩), ⟨70, []⟩), ((2, ⟨0, 1⟩), ⟨25, []⟩)]
    supplyStore := [(1, ⟨995⟩)]
    escrowStore := [] }

/-- Witness for C5: the over-balance transfer rejects and the in-balance
transfer keeps the sender balance non-negative. -/
theorem c5_transfer_sender_balance_safe_witness :
    (∃ e, Token.transfer exTokenStateNative 1 2 ⟨0, 1⟩ 200 = .error e) ∧
    0 ≤ Token.getAvailableBalance exStAfterNative 1 ⟨0, 1⟩ :=
  ⟨(c5_transfer_sender_balance_safe exTokenStateNative exStAfterNative 1 2 ⟨0, 1⟩ 200).1
      (by decide),
   (c5_transfer_sender_balance_safe exTokenStateNative exStAfterNative 1 2 ⟨0, 1⟩ 30).2
      (by decide) rfl⟩

/-- Token state where both addresses already hold the native token. -/
def exStBoth : Token.TokenState :=
  { ownChainID := 7
    minBalances := [(⟨0, 1⟩, 5)]
    userStore := [((1, ⟨0, 1⟩), ⟨100, []⟩), ((2, ⟨0, 1⟩), ⟨50, []⟩)]
    supplyStore := [(1, ⟨1000⟩)]
    escrowStore := [] }

/-- Result of transferring 30 between the two existing accounts. -/
def exStBothAfter : Token.TokenState :=
  { ownChainID := 7
    minBalances := [(⟨0, 1⟩, 5)]
    userStore := [((1, ⟨0, 1⟩), ⟨70, []⟩), ((2, ⟨0, 1⟩), ⟨80, []⟩)]
    supplyStore := [(1, ⟨1000⟩)]
    escrowStore := [] }

/-- Witness for the amended C3: a transfer between existing accounts
conserves the held total. -/
theorem c3_total_conservation_amended_witness :
    Token.totalHeld exStBothAfter ⟨0, 1⟩ = Token.totalHeld exStBoth ⟨0, 1⟩ :=
  (c3_total_conservation_amended exStBoth exStBothAfter 1 2 1 ⟨0, 1⟩ 30).1
    (by decide) rfl ⟨0, 1⟩
